import Mathlib

/-!
Verification of the Boston 311 dashboard core logic: SQL query construction
(`sql_utils.py`), distinct-value lookups (`database.py`), the time-period
catalog (`time_periods.py`), stable color mappings (`color_mapping.py`) and
the dashboard controller's reactive update order (`dashboard.py`).

The Python source is embedded shallowly: pure functions become Lean
functions, the DuckDB table becomes a list of rows, Python `dict`s become
association lists with insertion-order semantics, raising becomes `Option`,
and the reactive `param` dispatch becomes an explicit step function that
records an event trace.
-/

/-- The single-quote character, written via its code point. -/
def squote : Char := Char.ofNat 39

/-- The single-quote character as a one-character string. -/
def squoteStr : String := String.mk [squote]

/-- `AppConfig.COLOR_COLUMNS` from `config.py`: the whitelist of columns
allowed in dynamically built queries. -/
def COLOR_COLUMNS : List String := ["source", "subject", "neighborhood"]

/-- `AppConfig.NULL_VALUE_COLOR` from `config.py`: the fixed gray used for
null values. -/
def NULL_VALUE_COLOR : Nat × Nat × Nat := (128, 128, 128)

/-- `AppConfig.MIN_YEAR` from `config.py`. -/
def MIN_YEAR : Int := 2011

/-- `AppConfig.RECENT_YEARS_COUNT` from `config.py`. -/
def RECENT_YEARS_COUNT : Int := 6

/-- `SQLUtils.validate_column_name` from `sql_utils.py`: raises (here:
`none`) when the column is not in the whitelist, otherwise returns the
column unchanged. -/
def validate_column_name (column : String) : Option String :=
  if column ∈ COLOR_COLUMNS then some column else none

/-- Character-level body of `SQLUtils.escape_sql_string`: Python
`value.replace` with the one-character pattern `squote` and replacement
`squote squote` rewrites each character independently. -/
def escapeChars : List Char → List Char
  | [] => []
  | c :: rest =>
    if c = squote then squote :: squote :: escapeChars rest
    else c :: escapeChars rest

/-- `SQLUtils.escape_sql_string` from `sql_utils.py`. -/
def escape_sql_string (value : String) : String :=
  String.mk (escapeChars value.data)

/-- `SQLUtils.build_time_filter` from `sql_utils.py`: empty when either
bound is absent or falsy (the empty string), otherwise the inclusive-lower /
exclusive-upper range clause with escaped bounds. -/
def build_time_filter (start_date end_date : Option String) : String :=
  match start_date, end_date with
  | some s, some e =>
    if s.isEmpty || e.isEmpty then ""
    else
      " AND open_dt >= " ++ squoteStr ++ escape_sql_string s ++ squoteStr ++
      " AND open_dt < " ++ squoteStr ++ escape_sql_string e ++ squoteStr
  | _, _ => ""

/-- `SQLUtils.build_distinct_column_query` from `sql_utils.py`: validates
the column first; raising propagates (`none`). -/
def build_distinct_column_query (column : String) (time_filter : String) :
    Option String :=
  (validate_column_name column).map fun validated_column =>
    "SELECT DISTINCT " ++ validated_column ++ " FROM requests WHERE " ++
    validated_column ++ " IS NOT NULL" ++ time_filter ++
    " ORDER BY " ++ validated_column

/-- SQL string-literal lexer body: having consumed an opening quote, scan
to the closing quote, reading each doubled quote as one literal quote;
return the decoded content and the remaining characters. -/
def lexQuoted : List Char → Option (List Char × List Char)
  | [] => none
  | [c] => if c = squote then some ([], []) else none
  | c :: c2 :: rest2 =>
    if c = squote then
      if c2 = squote then (lexQuoted rest2).map fun p => (squote :: p.1, p.2)
      else some ([], c2 :: rest2)
    else (lexQuoted (c2 :: rest2)).map fun p => (c :: p.1, p.2)

/-- Parse a complete SQL string literal: an opening quote, a body with
doubled-quote escapes, a closing quote, and nothing after it. This is the
value such a literal denotes to the SQL engine. -/
def parseSqlLiteral (s : String) : Option String :=
  match s.data with
  | [] => none
  | c :: rest =>
    if c = squote then
      (lexQuoted rest).bind fun p =>
        if p.2.isEmpty then some (String.mk p.1) else none
    else none

/-- Interpolating a value as a SQL literal, as `_build_filter_conditions`
in `dashboard.py` does: quote, escaped value, quote. -/
def sqlLiteral (value : String) : String :=
  squoteStr ++ escape_sql_string value ++ squoteStr

theorem escapeChars_append (a b : List Char) :
    escapeChars (a ++ b) = escapeChars a ++ escapeChars b := by
  induction a with
  | nil => rfl
  | cons c rest ih =>
    by_cases h : c = squote <;> simp [escapeChars, h, ih]

theorem lexQuoted_escape (l : List Char) :
    lexQuoted (escapeChars l ++ [squote]) = some (l, []) := by
  induction l with
  | nil => simp [escapeChars, lexQuoted]
  | cons c rest ih =>
    by_cases h : c = squote
    · subst h
      simp [escapeChars, lexQuoted, ih]
    · have hne : escapeChars rest ++ [squote] ≠ [] := by simp
      obtain ⟨c2, rest2, heq⟩ := List.exists_cons_of_ne_nil hne
      have hgoal : escapeChars (c :: rest) ++ [squote] = c :: c2 :: rest2 := by
        simp only [escapeChars, if_neg h, List.cons_append, heq]
      rw [hgoal]
      have h2 : lexQuoted (c :: c2 :: rest2) =
          (lexQuoted (c2 :: rest2)).map fun p => (c :: p.1, p.2) := by
        simp [lexQuoted, h]
      rw [h2, ← heq, ih]
      rfl

theorem parseSqlLiteral_sqlLiteral (v : String) :
    parseSqlLiteral (sqlLiteral v) = some v := by
  have hdata : (sqlLiteral v).data = squote :: (escapeChars v.data ++ [squote]) := by
    simp [sqlLiteral, squoteStr, escape_sql_string, String.data]
  simp [parseSqlLiteral, hdata, lexQuoted_escape, List.isEmpty]

theorem escape_sql_string_injective (a b : String) :
    escape_sql_string a = escape_sql_string b → a = b := by
  intro h
  have h1 : escapeChars a.data = escapeChars b.data := by
    have := congrArg String.data h
    simpa [escape_sql_string] using this
  have h2 : parseSqlLiteral (sqlLiteral a) = parseSqlLiteral (sqlLiteral b) := by
    simp [sqlLiteral, escape_sql_string, h1]
  rw [parseSqlLiteral_sqlLiteral, parseSqlLiteral_sqlLiteral] at h2
  exact Option.some.inj h2

/-- Claim C1: `validate_column_name` raises exactly on columns outside the
whitelist `("source", "subject", "neighborhood")`, returns whitelisted
columns unchanged, and every dynamically built distinct-value query passes
its column through this validation first: `build_distinct_column_query`
yields a query exactly when validation succeeds, and raises otherwise. -/
theorem validate_column_name_whitelist (c tf : String) :
    (validate_column_name c = none ↔ c ∉ COLOR_COLUMNS) ∧
    (c ∈ COLOR_COLUMNS → validate_column_name c = some c) ∧
    (build_distinct_column_query c tf = none ↔ c ∉ COLOR_COLUMNS) ∧
    (∀ q, build_distinct_column_query c tf = some q →
      validate_column_name c = some c) := by
  refine ⟨?_, ?_, ?_, ?_⟩
  · by_cases h : c ∈ COLOR_COLUMNS <;> simp [validate_column_name, h]
  · intro h; simp [validate_column_name, h]
  · by_cases h : c ∈ COLOR_COLUMNS <;>
      simp [build_distinct_column_query, validate_column_name, h]
  · intro q hq
    by_cases h : c ∈ COLOR_COLUMNS
    · simp [validate_column_name, h]
    · simp [build_distinct_column_query, validate_column_name, h] at hq

/-- Witness for C1 at concrete columns: `"source"` is accepted unchanged
and `"open_dt"` is rejected. -/
theorem validate_column_name_whitelist_witness :
    validate_column_name "source" = some "source" ∧
    validate_column_name "open_dt" = none := by
  refine ⟨(validate_column_name_whitelist "source" "").2.1 (by decide), ?_⟩
  exact (validate_column_name_whitelist "open_dt" "").1.mpr (by decide)

/-- Claim C2: `escape_sql_string` replaces each single quote by two single
quotes and changes nothing else (quote-free strings are fixed, a single
quote becomes a doubled quote, and escaping acts independently on
concatenation); interpolating the escaped string as a SQL literal parses
back to exactly the original value, and escaping is injective. -/
theorem escape_sql_string_roundtrip :
    (∀ s : String, (∀ c ∈ s.data, c ≠ squote) → escape_sql_string s = s) ∧
    (escape_sql_string squoteStr = String.mk [squote, squote]) ∧
    (∀ a b : String,
      escape_sql_string (a ++ b) = escape_sql_string a ++ escape_sql_string b) ∧
    (∀ v : String, parseSqlLiteral (sqlLiteral v) = some v) ∧
    (∀ a b : String, escape_sql_string a = escape_sql_string b → a = b) := by
  refine ⟨?_, ?_, ?_, parseSqlLiteral_sqlLiteral, escape_sql_string_injective⟩
  · intro s hs
    have : ∀ l : List Char, (∀ c ∈ l, c ≠ squote) → escapeChars l = l := by
      intro l hl
      induction l with
      | nil => rfl
      | cons c rest ih =>
        have hc : c ≠ squote := hl c (by simp)
        simp [escapeChars, hc]
        exact ih fun c h => hl c (by simp [h])
    have h2 := this s.data hs
    simp [escape_sql_string, h2]
  · simp [escape_sql_string, squoteStr, escapeChars]
  · intro a b
    have : (a ++ b).data = a.data ++ b.data := by
      simp [String.data]
    simp [escape_sql_string, this, escapeChars_append]
    rfl

/-- Witness for C2 at a concrete string containing a quote. -/
theorem escape_sql_string_roundtrip_witness :
    escape_sql_string "ab" = "ab" ∧
    parseSqlLiteral (sqlLiteral (String.mk [squote, Char.ofNat 98])) =
      some (String.mk [squote, Char.ofNat 98]) := by
  refine ⟨escape_sql_string_roundtrip.1 "ab" (by decide), ?_⟩
  exact escape_sql_string_roundtrip.2.2.2.1 (String.mk [squote, Char.ofNat 98])

/-! ## Data model: the `requests` table -/

/-- A row of the `requests` table (`database.py` loads it wholesale from
parquet files): the columns the dashboard reads. `open_dt` is kept as its
`YYYY-MM-DD HH:MM:SS` string rendering, which orders identically to the
timestamp it denotes. -/
structure RequestRow where
  source : Option String
  subject : Option String
  neighborhood : Option String
  open_dt : String
  geometry : Option (Int × Int)
deriving DecidableEq, Repr

/-- Projection of a row at a dynamically chosen column name. -/
def projOf (column : String) (row : RequestRow) : Option String :=
  if column = "source" then row.source
  else if column = "subject" then row.subject
  else if column = "neighborhood" then row.neighborhood
  else none

/-! ## Semantics of `SELECT DISTINCT col ... ORDER BY col` -/

/-- Insert into a strictly sorted list, keeping it strictly sorted and
duplicate-free. -/
def sortedInsert (v : String) : List String → List String
  | [] => [v]
  | x :: xs =>
    if v < x then v :: x :: xs
    else if v = x then x :: xs
    else x :: sortedInsert v xs

/-- The distinct values of a list, in ascending order: the semantics of
`SELECT DISTINCT c ... ORDER BY c`. -/
def distinctSorted (vals : List String) : List String :=
  vals.foldr sortedInsert []

/-- Semantics of the time filter emitted by `build_time_filter`:
`none` filters nothing, `some (s, e)` keeps `s ≤ open_dt < e`. -/
def matchesTimeRange (tf : Option (String × String)) (row : RequestRow) : Bool :=
  match tf with
  | none => true
  | some (s, e) => decide (s ≤ row.open_dt) && decide (row.open_dt < e)

/-- The `(start, end)` bounds that `build_time_filter` actually filters by:
absent when either bound is missing or is the falsy empty string. -/
def timeBounds (start_date end_date : Option String) : Option (String × String) :=
  match start_date, end_date with
  | some s, some e => if s.isEmpty || e.isEmpty then none else some (s, e)
  | _, _ => none

/-- Executing the query built by `build_distinct_column_query` against the
table: distinct non-null values of the projected column among rows in the
time range, ascending. -/
def columnDistinct (table : List RequestRow) (proj : RequestRow → Option String)
    (tf : Option (String × String)) : List String :=
  distinctSorted ((table.filter (matchesTimeRange tf)).filterMap proj)

/-- `get_neighborhoods` from `database.py`: distinct values plus the `"All"`
sentinel; just `["All"]` on an empty result. -/
def get_neighborhoods (table : List RequestRow)
    (start_date end_date : Option String) : List String :=
  let vals := columnDistinct table (fun r => r.neighborhood)
    (timeBounds start_date end_date)
  if vals.isEmpty then ["All"] else vals ++ ["All"]

/-- `get_sources` from `database.py`. -/
def get_sources (table : List RequestRow)
    (start_date end_date : Option String) : List String :=
  let vals := columnDistinct table (fun r => r.source)
    (timeBounds start_date end_date)
  if vals.isEmpty then ["All"] else vals ++ ["All"]

/-- `get_subjects` from `database.py`. -/
def get_subjects (table : List RequestRow)
    (start_date end_date : Option String) : List String :=
  let vals := columnDistinct table (fun r => r.subject)
    (timeBounds start_date end_date)
  if vals.isEmpty then ["All"] else vals ++ ["All"]

theorem mem_sortedInsert (y v : String) (l : List String) :
    y ∈ sortedInsert v l ↔ y = v ∨ y ∈ l := by
  induction l with
  | nil => simp [sortedInsert]
  | cons x xs ih =>
    by_cases h1 : v < x
    · simp [sortedInsert, h1]
    · by_cases h2 : v = x
      · subst h2; simp [sortedInsert, h1]
      · simp [sortedInsert, h1, h2, ih]
        tauto

theorem pairwise_sortedInsert (v : String) (l : List String)
    (h : l.Pairwise (· < ·)) : (sortedInsert v l).Pairwise (· < ·) := by
  induction l with
  | nil => simp [sortedInsert]
  | cons x xs ih =>
    rw [List.pairwise_cons] at h
    by_cases h1 : v < x
    · rw [sortedInsert, if_pos h1, List.pairwise_cons]
      refine ⟨?_, List.pairwise_cons.mpr h⟩
      intro y hy
      rcases List.mem_cons.mp hy with rfl | hy'
      · exact h1
      · exact lt_trans h1 (h.1 y hy')
    · by_cases h2 : v = x
      · rw [sortedInsert, if_neg h1, if_pos h2]
        exact List.pairwise_cons.mpr h
      · rw [sortedInsert, if_neg h1, if_neg h2, List.pairwise_cons]
        have hxv : x < v := by
          rcases lt_trichotomy v x with hlt | heq | hgt
          · exact absurd hlt h1
          · exact absurd heq h2
          · exact hgt
        refine ⟨?_, ih h.2⟩
        intro y hy
        rcases (mem_sortedInsert y v xs).mp hy with rfl | hy'
        · exact hxv
        · exact h.1 y hy'

theorem pairwise_distinctSorted (l : List String) :
    (distinctSorted l).Pairwise (· < ·) := by
  induction l with
  | nil => simp [distinctSorted]
  | cons x xs ih => exact pairwise_sortedInsert x (distinctSorted xs) ih

theorem mem_distinctSorted (y : String) (l : List String) :
    y ∈ distinctSorted l ↔ y ∈ l := by
  induction l with
  | nil => simp [distinctSorted]
  | cons x xs ih =>
    have hstep : distinctSorted (x :: xs) = sortedInsert x (distinctSorted xs) := rfl
    rw [hstep, mem_sortedInsert, ih]
    simp

theorem mem_columnDistinct (table : List RequestRow)
    (proj : RequestRow → Option String) (s e v : String) :
    v ∈ columnDistinct table proj (some (s, e)) ↔
      ∃ row ∈ table, proj row = some v ∧ s ≤ row.open_dt ∧ row.open_dt < e := by
  rw [columnDistinct, mem_distinctSorted, List.mem_filterMap]
  constructor
  · rintro ⟨row, hrow, hproj⟩
    rw [List.mem_filter] at hrow
    have hm := hrow.2
    rw [matchesTimeRange, Bool.and_eq_true, decide_eq_true_eq,
      decide_eq_true_eq] at hm
    exact ⟨row, hrow.1, hproj, hm.1, hm.2⟩
  · rintro ⟨row, hrow, hproj, hs, he⟩
    refine ⟨row, List.mem_filter.mpr ⟨hrow, ?_⟩, hproj⟩
    rw [matchesTimeRange, Bool.and_eq_true]
    exact ⟨decide_eq_true hs, decide_eq_true he⟩

/-- What claim C5 asserts of a distinct-value lookup result over rows in
`[s, e)`. -/
def distinctLookupSpec (table : List RequestRow)
    (proj : RequestRow → Option String) (s e : String)
    (result : List String) : Prop :=
  (∀ v ∈ result.dropLast,
    ∃ row ∈ table, proj row = some v ∧ s ≤ row.open_dt ∧ row.open_dt < e) ∧
  result.getLast? = some "All" ∧
  result.dropLast.Pairwise (· < ·) ∧
  (result.dropLast = [] → result = ["All"])

theorem lookup_spec_of_columnDistinct (table : List RequestRow)
    (proj : RequestRow → Option String) (s e : String)
    (hs : ¬s.isEmpty) (he : ¬e.isEmpty) :
    distinctLookupSpec table proj s e
      (if (columnDistinct table proj (timeBounds (some s) (some e))).isEmpty
       then ["All"]
       else columnDistinct table proj (timeBounds (some s) (some e)) ++ ["All"]) := by
  have hb : timeBounds (some s) (some e) = some (s, e) := by
    simp [timeBounds, hs, he]
  rw [hb]
  set vals := columnDistinct table proj (some (s, e)) with hvals
  by_cases hemp : vals.isEmpty
  · rw [if_pos hemp]
    refine ⟨?_, by simp, by simp, fun _ => rfl⟩
    intro v hv
    simp at hv
  · rw [if_neg hemp]
    refine ⟨?_, ?_, ?_, ?_⟩
    · intro v hv
      rw [List.dropLast_concat] at hv
      exact (mem_columnDistinct table proj s e v).mp hv
    · simp
    · rw [List.dropLast_concat]
      exact pairwise_distinctSorted _
    · intro hd
      rw [List.dropLast_concat] at hd
      rw [hd]
      simp

/-- Claim C5: for valid (non-empty) `(start, end)` bounds, every value a
distinct-value lookup returns (apart from the sentinel) occurs in some row
with `open_dt` in `[start, end)`; the list is ascending with `"All"`
appended last, present in every result, and the empty case returns exactly
`["All"]` — simultaneously for neighborhoods, sources and subjects. -/
theorem distinct_lookups_in_range (table : List RequestRow) (s e : String)
    (hs : ¬s.isEmpty) (he : ¬e.isEmpty) :
    distinctLookupSpec table (fun r => r.neighborhood) s e
      (get_neighborhoods table (some s) (some e)) ∧
    distinctLookupSpec table (fun r => r.source) s e
      (get_sources table (some s) (some e)) ∧
    distinctLookupSpec table (fun r => r.subject) s e
      (get_subjects table (some s) (some e)) :=
  ⟨lookup_spec_of_columnDistinct table _ s e hs he,
   lookup_spec_of_columnDistinct table _ s e hs he,
   lookup_spec_of_columnDistinct table _ s e hs he⟩

/-- Witness for C5 on a concrete two-row table and concrete bounds. -/
theorem distinct_lookups_in_range_witness :
    distinctLookupSpec
      [⟨some "Constituent Call", some "Public Works", some "Roxbury",
        "2024-03-01 12:00:00", some (1, 2)⟩,
       ⟨some "Web", none, some "Allston", "2025-02-01 09:00:00", none⟩]
      (fun r => r.neighborhood) "2024-01-01 00:00:00" "2025-01-01 00:00:00"
      (get_neighborhoods
        [⟨some "Constituent Call", some "Public Works", some "Roxbury",
          "2024-03-01 12:00:00", some (1, 2)⟩,
         ⟨some "Web", none, some "Allston", "2025-02-01 09:00:00", none⟩]
        (some "2024-01-01 00:00:00") (some "2025-01-01 00:00:00")) :=
  (distinct_lookups_in_range _ "2024-01-01 00:00:00" "2025-01-01 00:00:00"
    (by decide) (by decide)).1

/-! ## Time period catalog (`time_periods.py`) -/

/-- The `YYYY-01-01 00:00:00` rendering used for a year's period bounds in
`get_time_periods`. -/
def formatYearStart (year : Int) : String :=
  toString year ++ "-01-01 00:00:00"

/-- The list of years the loop in `get_time_periods` iterates over:
Python `range(current_year, max(MIN_YEAR, current_year -
RECENT_YEARS_COUNT), -1)`, descending and excluding the stop value. -/
def get_time_period_years (current_year : Int) : List Int :=
  let min_year := max MIN_YEAR (current_year - RECENT_YEARS_COUNT)
  (List.range (current_year - min_year).toNat).map fun i : Nat => current_year - (i : Int)

/-- The per-year entries of the catalog built by `get_time_periods`:
label `str(year)` mapped to the pair of Jan-1 bounds. -/
def get_time_period_year_entries (current_year : Int) :
    List (String × String × String) :=
  (get_time_period_years current_year).map fun year =>
    (toString year, formatYearStart year, formatYearStart (year + 1))

/-- The set of years claim C6 says the catalog covers: every calendar year
from the dataset's minimum year up to the current year, restricted to the
most recent `RECENT_YEARS_COUNT` years. -/
def claimC6Years (current_year y : Int) : Prop :=
  MIN_YEAR ≤ y ∧ y ≤ current_year ∧ current_year - RECENT_YEARS_COUNT < y

instance (current_year y : Int) : Decidable (claimC6Years current_year y) := by
  unfold claimC6Years
  infer_instance

/-- Claim C6 as stated: each year in the claimed range has its period in
the catalog. -/
def timePeriodsClaimC6 (current_year : Int) : Prop :=
  ∀ y : Int, claimC6Years current_year y →
    (toString y, formatYearStart y, formatYearStart (y + 1)) ∈
      get_time_period_year_entries current_year

/-- Counterexample to C6: with the current year equal to the dataset's
minimum year 2011, the claimed range contains 2011 but the loop
`range(current_year, max(MIN_YEAR, current_year - RECENT_YEARS_COUNT), -1)`
is empty — the stop year is excluded, so no period for 2011 exists. -/
theorem get_time_periods_min_year_counterexample :
    ¬timePeriodsClaimC6 2011 := by
  intro h
  have h2011 := h 2011 (by decide)
  have hempty : get_time_period_year_entries 2011 = [] := by decide
  rw [hempty] at h2011
  exact absurd h2011 (List.not_mem_nil _)

theorem mem_get_time_period_years (current_year y : Int) :
    y ∈ get_time_period_years current_year ↔
      max MIN_YEAR (current_year - RECENT_YEARS_COUNT) < y ∧ y ≤ current_year := by
  rw [get_time_period_years]
  simp only [List.mem_map, List.mem_range, MIN_YEAR, RECENT_YEARS_COUNT]
  rcases max_cases (2011 : Int) (current_year - 6) with ⟨hmax, hside⟩ | ⟨hmax, hside⟩ <;>
    rw [hmax] <;> constructor
  · rintro ⟨i, hi, rfl⟩
    omega
  · rintro ⟨h1, h2⟩
    exact ⟨(current_year - y).toNat, by omega, by omega⟩
  · rintro ⟨i, hi, rfl⟩
    omega
  · rintro ⟨h1, h2⟩
    exact ⟨(current_year - y).toNat, by omega, by omega⟩

/-- Claim C6 amended: the catalog's year periods are exactly those of the
years strictly above `max(MIN_YEAR, current_year - RECENT_YEARS_COUNT)` and
up to the current year — the stop year itself (in particular the dataset's
minimum year, whenever it is in that range) is excluded — and each year's
period is `[Jan 1 of that year, Jan 1 of the next year)` rendered as
`YYYY-MM-DD HH:MM:SS` strings under the label `str(year)`. -/
theorem get_time_periods_recent_years (current_year : Int) :
    (∀ y : Int, y ∈ get_time_period_years current_year ↔
      max MIN_YEAR (current_year - RECENT_YEARS_COUNT) < y ∧ y ≤ current_year) ∧
    (∀ y ∈ get_time_period_years current_year,
      (toString y, formatYearStart y, formatYearStart (y + 1)) ∈
        get_time_period_year_entries current_year) ∧
    (∀ p ∈ get_time_period_year_entries current_year,
      ∃ y ∈ get_time_period_years current_year,
        p = (toString y, formatYearStart y, formatYearStart (y + 1))) := by
  refine ⟨mem_get_time_period_years current_year, ?_, ?_⟩
  · intro y hy
    rw [get_time_period_year_entries]
    exact List.mem_map.mpr ⟨y, hy, rfl⟩
  · intro p hp
    rw [get_time_period_year_entries] at hp
    obtain ⟨y, hy, rfl⟩ := List.mem_map.mp hp
    exact ⟨y, hy, rfl⟩

/-- Witness for the amended C6 at current year 2024: 2024 is in the year
list and its entry carries the Jan-1 bounds. -/
theorem get_time_periods_recent_years_witness :
    (2024 : Int) ∈ get_time_period_years 2024 ∧
    ("2024", formatYearStart 2024, formatYearStart (2024 + 1)) ∈
      get_time_period_year_entries 2024 := by
  have hmem : (2024 : Int) ∈ get_time_period_years 2024 :=
    ((get_time_periods_recent_years 2024).1 2024).mpr (by decide)
  exact ⟨hmem, (get_time_periods_recent_years 2024).2.1 2024 hmem⟩

/-! ## Color mapping (`color_mapping.py`) -/

/-- An RGB triple as produced by `to_rgb`. -/
abbrev RGB := Nat × Nat × Nat

/-- Lookup in a Python `dict` modelled as an insertion-ordered association
list with unique keys: `d.get(k)`. -/
def pyGet {beta : Type} (k : String) : List (String × beta) → Option beta
  | [] => none
  | (k2, v) :: rest => if k2 = k then some v else pyGet k rest

/-- Python `d[k] = v`: overwrite in place when the key exists, else append. -/
def pySet {beta : Type} (k : String) (v : beta) :
    List (String × beta) → List (String × beta)
  | [] => [(k, v)]
  | (k2, v2) :: rest =>
    if k2 = k then (k, v) :: rest else (k2, v2) :: pySet k v rest

/-- One column's stable color mapping, as built inside the loop of
`get_global_color_mappings`: all distinct values over the full (unfiltered)
table, each assigned `colors[i % len(colors)]` in distinct-value order,
then the `"None"` key set to the fixed gray. The palette (colorcet's
`glasbey_category10`) is passed in as a parameter. -/
def get_global_color_mapping (palette : List RGB) (table : List RequestRow)
    (column : String) : List (String × RGB) :=
  let unique_values := columnDistinct table (projOf column) none
  let base := unique_values.enum.map fun p =>
    (p.2, palette.getD (p.1 % palette.length) NULL_VALUE_COLOR)
  pySet "None" NULL_VALUE_COLOR base

/-- `get_global_color_mappings` from `color_mapping.py`: one stable mapping
per whitelisted column, computed once over the full dataset. -/
def get_global_color_mappings (palette : List RGB) (table : List RequestRow) :
    List (String × List (String × RGB)) :=
  COLOR_COLUMNS.map fun column =>
    (column, get_global_color_mapping palette table column)

/-- The string a column value renders to after `::VARCHAR` plus pandas
`astype(str)`: a SQL NULL becomes the string `"None"`. -/
def strOfValue : Option String → String
  | none => "None"
  | some s => s

/-- Python `int(alpha * 255)` for `alpha` in `[0, 1]`: truncation, which is
the floor for non-negative arguments. -/
def alphaChannel (alpha : ℚ) : Int := Int.floor (alpha * 255)

/-- Modelled behavior of lonboard's `apply_categorical_cmap` (an external
library): each value is sent through the RGB mapping with the 8-bit alpha
appended; a value absent from the mapping has no specified color (the spec
leaves that fallback open), hence `none`. -/
def apply_categorical_cmap (m : List (String × RGB)) (vals : List String)
    (alpha : Int) : Option (List (List Int)) :=
  vals.mapM fun v => (pyGet v m).map fun rgb =>
    [(rgb.1 : Int), (rgb.2.1 : Int), (rgb.2.2 : Int), alpha]

/-- pandas `Series.unique`: distinct values in first-occurrence order,
nulls included. -/
def uniqueFirst (l : List (Option String)) : List (Option String) :=
  l.foldl (fun acc x => if x ∈ acc then acc else acc ++ [x]) []

/-- `f"{n:02x}"`: lowercase hex, zero-padded to two digits. -/
def hexByte (n : Nat) : String :=
  let ds := Nat.toDigits 16 n
  String.mk (List.replicate (2 - ds.length) (Char.ofNat 48) ++ ds)

/-- The `"#RRGGBB"` legend entry built from an RGB triple. -/
def hexColor (rgb : RGB) : String :=
  "#" ++ hexByte rgb.1 ++ hexByte rgb.2.1 ++ hexByte rgb.2.2

/-- The legend dictionary comprehension in `map_column_to_color`: one entry
per distinct value present in the data, skipping values (and nulls) absent
from the mapping's keys. -/
def legendOf (m : List (String × RGB)) (vals : List (Option String)) :
    List (String × String) :=
  (uniqueFirst vals).filterMap fun ov =>
    match ov with
    | none => none
    | some v => (pyGet v m).map fun rgb => (v, hexColor rgb)

/-- `map_column_to_color` from `color_mapping.py`. Inputs: the global
mappings, the column, the filtered result's column values (pre-`astype`,
so nulls are still `none`), the alpha, and the legend flag. `none` models a
raised error; the legend component is `none` when no legend was asked. -/
def map_column_to_color (global_mappings : List (String × List (String × RGB)))
    (column : String) (vals : List (Option String)) (alpha : ℚ)
    (return_legend : Bool) :
    Option (List (List Int) × Option (List (String × String))) := do
  let validated_column ← validate_column_name column
  let rgb_color_map := (pyGet validated_column global_mappings).getD []
  if rgb_color_map.isEmpty then
    return ([], if return_legend then some [] else none)
  if vals.isEmpty then
    return ([], if return_legend then some [] else none)
  let color_array ←
    apply_categorical_cmap rgb_color_map (vals.map strOfValue)
      (alphaChannel alpha)
  if return_legend then
    return (color_array, some (legendOf rgb_color_map vals))
  return (color_array, none)

/-- The RGBA color a row value receives from a mapping, when its rendered
string is among the mapping's keys. -/
def globalRowColor (m : List (String × RGB)) (alpha : Int)
    (v : Option String) : List Int :=
  match pyGet (strOfValue v) m with
  | some rgb => [(rgb.1 : Int), (rgb.2.1 : Int), (rgb.2.2 : Int), alpha]
  | none => []

theorem pyGet_pySet_self {beta : Type} (k : String) (v : beta)
    (d : List (String × beta)) : pyGet k (pySet k v d) = some v := by
  induction d with
  | nil => simp [pySet, pyGet]
  | cons p rest ih =>
    by_cases h : p.1 = k
    · simp [pySet, h, pyGet]
    · simp [pySet, h, pyGet, ih]

theorem pySet_ne_nil {beta : Type} (k : String) (v : beta)
    (d : List (String × beta)) : pySet k v d ≠ [] := by
  cases d with
  | nil => simp [pySet]
  | cons p rest =>
    by_cases h : p.1 = k <;> simp [pySet, h]

theorem pyGet_isSome_iff {beta : Type} (k : String) (d : List (String × beta)) :
    (pyGet k d).isSome ↔ k ∈ d.map Prod.fst := by
  induction d with
  | nil => simp [pyGet]
  | cons p rest ih =>
    by_cases h : p.1 = k
    · simp [pyGet, h]
    · simp [pyGet, h, ih]
      intro heq
      exact absurd heq.symm h

theorem mem_keys_pySet {beta : Type} (k k2 : String) (v : beta)
    (d : List (String × beta)) (h : k2 ∈ d.map Prod.fst) :
    k2 ∈ (pySet k v d).map Prod.fst := by
  induction d with
  | nil => simp at h
  | cons p rest ih =>
    rw [List.map_cons, List.mem_cons] at h
    by_cases hp : p.1 = k
    · rcases h with h | h
      · simp [pySet, hp, h.symm ▸ hp]
      · simp [pySet, hp, h]
    · rcases h with h | h
      · simp [pySet, hp, h]
      · simp [pySet, hp, ih h]

theorem mem_columnDistinct_none (table : List RequestRow)
    (proj : RequestRow → Option String) (v : String) :
    v ∈ columnDistinct table proj none ↔ ∃ row ∈ table, proj row = some v := by
  rw [columnDistinct, mem_distinctSorted, List.mem_filterMap]
  have hf : table.filter (matchesTimeRange none) = table := by
    simp [matchesTimeRange]
  rw [hf]

theorem pyGet_global_isSome (palette : List RGB) (table : List RequestRow)
    (column v : String)
    (h : v = "None" ∨ ∃ row ∈ table, projOf column row = some v) :
    (pyGet v (get_global_color_mapping palette table column)).isSome := by
  rcases h with rfl | h
  · rw [get_global_color_mapping]
    simp [pyGet_pySet_self]
  · rw [get_global_color_mapping, pyGet_isSome_iff]
    apply mem_keys_pySet
    have hv : v ∈ columnDistinct table (projOf column) none :=
      (mem_columnDistinct_none table (projOf column) v).mpr h
    have hkeys : ((columnDistinct table (projOf column) none).enum.map
        (fun p => (p.2, palette.getD (p.1 % palette.length) NULL_VALUE_COLOR))).map
          Prod.fst = columnDistinct table (projOf column) none := by
      rw [List.map_map]
      have : (Prod.fst ∘ fun p : Nat × String =>
          (p.2, palette.getD (p.1 % palette.length) NULL_VALUE_COLOR)) =
          Prod.snd := by
        funext p
        rfl
      rw [this, List.enum_map_snd]
    rw [hkeys]
    exact hv

/-- Claim C10: in every mapping built by `get_global_color_mappings`, the
key `"None"` holds the fixed gray null-value color — whatever palette color
the dict comprehension assigned a genuine `"None"` distinct value is
overwritten by the trailing `color_mappings[column]["None"] = gray`
assignment — and, since a null renders to the same string `"None"`,
a literal `"None"` category is indistinguishable from missing values. -/
theorem global_mapping_none_is_gray (palette : List RGB)
    (table : List RequestRow) (column : String) :
    pyGet "None" (get_global_color_mapping palette table column) =
      some NULL_VALUE_COLOR ∧
    strOfValue none = strOfValue (some "None") ∧
    ∀ m : List (String × RGB), ∀ alpha : Int,
      globalRowColor m alpha none = globalRowColor m alpha (some "None") := by
  refine ⟨?_, rfl, fun m alpha => rfl⟩
  rw [get_global_color_mapping]
  exact pyGet_pySet_self "None" NULL_VALUE_COLOR _

theorem mapM_option_eq_map {alpha beta : Type} (f : alpha → Option beta)
    (g : alpha → beta) (l : List alpha) (h : ∀ a ∈ l, f a = some (g a)) :
    l.mapM f = some (l.map g) := by
  induction l with
  | nil => rfl
  | cons x xs ih =>
    rw [List.mapM_cons, h x (by simp), ih fun a ha => h a (by simp [ha])]
    rfl


theorem apply_categorical_cmap_eq (m : List (String × RGB))
    (vals : List (Option String)) (a : Int)
    (hdom : ∀ v ∈ vals, (pyGet (strOfValue v) m).isSome) :
    apply_categorical_cmap m (vals.map strOfValue) a =
      some (vals.map (globalRowColor m a)) := by
  rw [apply_categorical_cmap]
  have hfa : ∀ s ∈ vals.map strOfValue,
      ((pyGet s m).map fun rgb =>
        [(rgb.1 : Int), (rgb.2.1 : Int), (rgb.2.2 : Int), a]) =
      some (match pyGet s m with
        | some rgb => [(rgb.1 : Int), (rgb.2.1 : Int), (rgb.2.2 : Int), a]
        | none => []) := by
    intro s hs
    obtain ⟨v, hv, rfl⟩ := List.mem_map.mp hs
    obtain ⟨rgb, hrgb⟩ := Option.isSome_iff_exists.mp (hdom v hv)
    rw [hrgb]
    rfl
  rw [mapM_option_eq_map _ _ _ hfa, List.map_map]
  rfl

theorem pyGet_color_mappings (palette : List RGB) (table : List RequestRow)
    (column : String) (hcol : column ∈ COLOR_COLUMNS) :
    pyGet column (get_global_color_mappings palette table) =
      some (get_global_color_mapping palette table column) := by
  rw [get_global_color_mappings]
  fin_cases hcol <;> simp [pyGet, COLOR_COLUMNS]

/-- The result of `map_column_to_color` when every rendered value of the
filtered set is a key of the column's global mapping: one `globalRowColor`
per row, plus the legend of the values present. Holds uniformly, also for
the empty result set. -/
theorem map_column_to_color_eq (palette : List RGB) (table : List RequestRow)
    (column : String) (vals : List (Option String)) (alpha : ℚ)
    (hcol : column ∈ COLOR_COLUMNS)
    (hdom : ∀ v ∈ vals,
      (pyGet (strOfValue v)
        (get_global_color_mapping palette table column)).isSome) :
    map_column_to_color (get_global_color_mappings palette table) column vals
        alpha true =
      some (vals.map (globalRowColor
              (get_global_color_mapping palette table column)
              (alphaChannel alpha)),
            some (legendOf (get_global_color_mapping palette table column)
              vals)) := by
  have hval : validate_column_name column = some column := by
    simp [validate_column_name, hcol]
  have hget := pyGet_color_mappings palette table column hcol
  have hnn : get_global_color_mapping palette table column ≠ [] := by
    rw [get_global_color_mapping]
    exact pySet_ne_nil _ _ _
  have hne : ((get_global_color_mapping palette table column).isEmpty) = false := by
    cases hl : get_global_color_mapping palette table column with
    | nil => exact absurd hl hnn
    | cons a t => rfl
  by_cases hvals : vals.isEmpty
  · rw [List.isEmpty_iff] at hvals
    subst hvals
    simp [map_column_to_color, hval, hget, hne, legendOf, uniqueFirst]
  · have hcmap := apply_categorical_cmap_eq
      (get_global_color_mapping palette table column) vals
      (alphaChannel alpha) hdom
    simp [map_column_to_color, hval, hget, hne, hvals, hcmap]
    intro hcontra
    exact absurd hcontra hnn

theorem mem_foldl_dedup (y : Option String) (l acc : List (Option String)) :
    y ∈ l.foldl (fun acc x => if x ∈ acc then acc else acc ++ [x]) acc ↔
      y ∈ acc ∨ y ∈ l := by
  induction l generalizing acc with
  | nil => simp
  | cons x xs ih =>
    rw [List.foldl_cons, ih]
    by_cases hx : x ∈ acc
    · rw [if_pos hx]
      simp only [List.mem_cons]
      constructor
      · tauto
      · rintro (h | rfl | h)
        · tauto
        · exact Or.inl hx
        · tauto
    · rw [if_neg hx]
      simp only [List.mem_append, List.mem_singleton, List.mem_cons]
      tauto

theorem mem_uniqueFirst (y : Option String) (l : List (Option String)) :
    y ∈ uniqueFirst l ↔ y ∈ l := by
  rw [uniqueFirst, mem_foldl_dedup]
  simp

theorem mem_legendOf (m : List (String × RGB)) (vals : List (Option String))
    (v hex : String) :
    (v, hex) ∈ legendOf m vals ↔
      some v ∈ vals ∧ ∃ rgb, pyGet v m = some rgb ∧ hex = hexColor rgb := by
  rw [legendOf, List.mem_filterMap]
  constructor
  · rintro ⟨ov, hov, hmatch⟩
    cases ov with
    | none => simp at hmatch
    | some w =>
      simp only [Option.map_eq_some'] at hmatch
      obtain ⟨rgb, hrgb, heq⟩ := hmatch
      have hpair : (w, hexColor rgb) = (v, hex) := heq
      rw [Prod.mk.injEq] at hpair
      obtain ⟨rfl, rfl⟩ := hpair
      exact ⟨(mem_uniqueFirst _ _).mp hov, rgb, hrgb, rfl⟩
  · rintro ⟨hv, rgb, hrgb, rfl⟩
    refine ⟨some v, (mem_uniqueFirst _ _).mpr hv, ?_⟩
    simp [hrgb]

theorem hdom_of_subtable (palette : List RGB) (table filtered : List RequestRow)
    (column : String) (hsub : ∀ r ∈ filtered, r ∈ table) :
    ∀ v ∈ filtered.map (projOf column),
      (pyGet (strOfValue v)
        (get_global_color_mapping palette table column)).isSome := by
  intro v hv
  obtain ⟨r, hr, rfl⟩ := List.mem_map.mp hv
  cases hp : projOf column r with
  | none =>
    exact pyGet_global_isSome palette table column "None" (Or.inl rfl)
  | some w =>
    exact pyGet_global_isSome palette table column w
      (Or.inr ⟨r, hsub r hr, hp⟩)

theorem getD_map_of_lt {alpha beta : Type} (g : alpha → beta) (l : List alpha)
    (i : Nat) (h : i < l.length) (da : alpha) (db : beta) :
    (l.map g).getD i db = g (l.getD i da) := by
  induction l generalizing i with
  | nil => simp at h
  | cons x xs ih =>
    cases i with
    | zero => rfl
    | succ n =>
      simp only [List.map_cons, List.getD_cons_succ]
      exact ih n (by simpa using h)

theorem getD_mem_of_lt {alpha : Type} (l : List alpha) (i : Nat)
    (h : i < l.length) (d : alpha) : l.getD i d ∈ l := by
  induction l generalizing i with
  | nil => simp at h
  | cons x xs ih =>
    cases i with
    | zero => simp [List.getD_cons_zero]
    | succ n =>
      rw [List.getD_cons_succ]
      exact List.mem_cons_of_mem x (ih n (by simpa using h))

/-- Claim C7: for a whitelisted column, `map_column_to_color` on an empty
filtered result set returns an empty color array, plus an empty legend
when one is requested, and never raises; likewise when the precomputed
mapping for the column is empty, whatever the values. -/
theorem map_column_to_color_empty (global_mappings :
      List (String × List (String × RGB)))
    (column : String) (alpha : ℚ) (hcol : column ∈ COLOR_COLUMNS) :
    map_column_to_color global_mappings column [] alpha true =
      some ([], some []) ∧
    map_column_to_color global_mappings column [] alpha false =
      some ([], none) ∧
    (∀ vals rl, (pyGet column global_mappings).getD [] = [] →
      map_column_to_color global_mappings column vals alpha rl =
        some ([], if rl then some [] else none)) := by
  have hval : validate_column_name column = some column := by
    simp [validate_column_name, hcol]
  refine ⟨?_, ?_, ?_⟩
  · by_cases hm : ((pyGet column global_mappings).getD []).isEmpty <;>
      simp [map_column_to_color, hval, hm]
  · by_cases hm : ((pyGet column global_mappings).getD []).isEmpty <;>
      simp [map_column_to_color, hval, hm]
  · intro vals rl hm
    have hm2 : ((pyGet column global_mappings).getD []).isEmpty = true := by
      rw [hm]
      rfl
    cases rl <;> simp [map_column_to_color, hval, hm2, hm]

/-- Witness for C7: the `"source"` column with an arbitrary concrete
mapping table and alpha `1`. -/
theorem map_column_to_color_empty_witness :
    map_column_to_color [("source", [("Web", ((1, 2, 3) : RGB))])] "source" []
      1 true = some ([], some []) :=
  (map_column_to_color_empty [("source", [("Web", ((1, 2, 3) : RGB))])]
    "source" 1 (by decide)).1

/-- Claim C3: the color a value receives depends only on the global
mapping computed once over the unfiltered table: for any two filter
selections (sub-tables), `map_column_to_color` colors each row by
`globalRowColor` of the full-table mapping, so positions of the two
filtered sets holding the same value get identical colors, and repeated
calls are equal by determinism of the function. -/
theorem color_stability (palette : List RGB)
    (table filtered1 filtered2 : List RequestRow) (column : String)
    (alpha : ℚ) (hcol : column ∈ COLOR_COLUMNS)
    (h1 : ∀ r ∈ filtered1, r ∈ table) (h2 : ∀ r ∈ filtered2, r ∈ table) :
    ∃ c1 s1 c2 s2,
      map_column_to_color (get_global_color_mappings palette table) column
        (filtered1.map (projOf column)) alpha true = some (c1, s1) ∧
      map_column_to_color (get_global_color_mappings palette table) column
        (filtered2.map (projOf column)) alpha true = some (c2, s2) ∧
      c1 = (filtered1.map (projOf column)).map
        (globalRowColor (get_global_color_mapping palette table column)
          (alphaChannel alpha)) ∧
      c2 = (filtered2.map (projOf column)).map
        (globalRowColor (get_global_color_mapping palette table column)
          (alphaChannel alpha)) ∧
      ∀ i j : Nat, i < filtered1.length → j < filtered2.length →
        (filtered1.map (projOf column)).getD i none =
          (filtered2.map (projOf column)).getD j none →
        c1.getD i [] = c2.getD j [] := by
  have hd1 := hdom_of_subtable palette table filtered1 column h1
  have hd2 := hdom_of_subtable palette table filtered2 column h2
  refine ⟨_, _, _, _,
    map_column_to_color_eq palette table column _ alpha hcol hd1,
    map_column_to_color_eq palette table column _ alpha hcol hd2,
    rfl, rfl, ?_⟩
  intro i j hi hj heq
  have hi2 : i < (filtered1.map (projOf column)).length := by simpa using hi
  have hj2 : j < (filtered2.map (projOf column)).length := by simpa using hj
  rw [getD_map_of_lt _ _ i hi2 none [], getD_map_of_lt _ _ j hj2 none [], heq]

/-- Witness for C3 on a one-row table used as both filtered sets. -/
theorem color_stability_witness :
    ∃ c1 s1 c2 s2,
      map_column_to_color
        (get_global_color_mappings [((1, 2, 3) : RGB)]
          [⟨some "Web", none, some "Roxbury", "2024-01-02 03:04:05", none⟩])
        "source"
        ([⟨some "Web", none, some "Roxbury", "2024-01-02 03:04:05", none⟩].map
          (projOf "source")) 1 true = some (c1, s1) ∧
      map_column_to_color
        (get_global_color_mappings [((1, 2, 3) : RGB)]
          [⟨some "Web", none, some "Roxbury", "2024-01-02 03:04:05", none⟩])
        "source"
        ([⟨some "Web", none, some "Roxbury", "2024-01-02 03:04:05", none⟩].map
          (projOf "source")) 1 true = some (c2, s2) ∧
      c1 = ([⟨some "Web", none, some "Roxbury", "2024-01-02 03:04:05", none⟩].map
        (projOf "source")).map
        (globalRowColor
          (get_global_color_mapping [((1, 2, 3) : RGB)]
            [⟨some "Web", none, some "Roxbury", "2024-01-02 03:04:05", none⟩]
            "source") (alphaChannel 1)) ∧
      c2 = ([⟨some "Web", none, some "Roxbury", "2024-01-02 03:04:05", none⟩].map
        (projOf "source")).map
        (globalRowColor
          (get_global_color_mapping [((1, 2, 3) : RGB)]
            [⟨some "Web", none, some "Roxbury", "2024-01-02 03:04:05", none⟩]
            "source") (alphaChannel 1)) ∧
      ∀ i j : Nat,
        i < ([⟨some "Web", none, some "Roxbury", "2024-01-02 03:04:05",
          none⟩] : List RequestRow).length →
        j < ([⟨some "Web", none, some "Roxbury", "2024-01-02 03:04:05",
          none⟩] : List RequestRow).length →
        ([⟨some "Web", none, some "Roxbury", "2024-01-02 03:04:05", none⟩].map
          (projOf "source")).getD i none =
          ([⟨some "Web", none, some "Roxbury", "2024-01-02 03:04:05",
            none⟩].map (projOf "source")).getD j none →
        c1.getD i [] = c2.getD j [] :=
  color_stability [((1, 2, 3) : RGB)]
    [⟨some "Web", none, some "Roxbury", "2024-01-02 03:04:05", none⟩]
    [⟨some "Web", none, some "Roxbury", "2024-01-02 03:04:05", none⟩]
    [⟨some "Web", none, some "Roxbury", "2024-01-02 03:04:05", none⟩]
    "source" 1 (by decide) (fun r hr => hr) (fun r hr => hr)

/-- Claim C8: on a non-empty filtered sub-table, the legend returned by
`map_column_to_color` holds one entry per (non-null) value present in the
filtered set — each mapped to the `"#RRGGBB"` hex encoding of that value's
RGB triple in the global color mapping — and no entry for any other
value. -/
theorem legend_matches_filtered (palette : List RGB)
    (table filtered : List RequestRow) (column : String) (alpha : ℚ)
    (hcol : column ∈ COLOR_COLUMNS) (hsub : ∀ r ∈ filtered, r ∈ table) :
    ∃ colors legend,
      map_column_to_color (get_global_color_mappings palette table) column
        (filtered.map (projOf column)) alpha true =
          some (colors, some legend) ∧
      (∀ v : String, some v ∈ filtered.map (projOf column) →
        ∃ rgb, pyGet v (get_global_color_mapping palette table column) =
            some rgb ∧
          (v, hexColor rgb) ∈ legend) ∧
      (∀ v hex : String, (v, hex) ∈ legend →
        some v ∈ filtered.map (projOf column) ∧
        ∃ rgb, pyGet v (get_global_color_mapping palette table column) =
            some rgb ∧ hex = hexColor rgb) := by
  have hdom := hdom_of_subtable palette table filtered column hsub
  refine ⟨_, _,
    map_column_to_color_eq palette table column _ alpha hcol hdom, ?_, ?_⟩
  · intro v hv
    have hsome := hdom (some v) hv
    obtain ⟨rgb, hrgb⟩ := Option.isSome_iff_exists.mp hsome
    refine ⟨rgb, hrgb, ?_⟩
    exact (mem_legendOf _ _ v (hexColor rgb)).mpr ⟨hv, rgb, hrgb, rfl⟩
  · intro v hex hmem
    obtain ⟨hv, rgb, hrgb, rfl⟩ := (mem_legendOf _ _ v hex).mp hmem
    exact ⟨hv, rgb, hrgb, rfl⟩

/-- Witness for C8 on a concrete one-row filtered set. -/
theorem legend_matches_filtered_witness :
    ∃ colors legend,
      map_column_to_color
        (get_global_color_mappings [((1, 2, 3) : RGB)]
          [⟨some "Web", none, some "Roxbury", "2024-01-02 03:04:05", none⟩])
        "source"
        ([⟨some "Web", none, some "Roxbury", "2024-01-02 03:04:05", none⟩].map
          (projOf "source")) 1 true = some (colors, some legend) ∧
      (∀ v : String,
        some v ∈ [⟨some "Web", none, some "Roxbury", "2024-01-02 03:04:05",
          none⟩].map (projOf "source") →
        ∃ rgb, pyGet v (get_global_color_mapping [((1, 2, 3) : RGB)]
            [⟨some "Web", none, some "Roxbury", "2024-01-02 03:04:05", none⟩]
            "source") = some rgb ∧
          (v, hexColor rgb) ∈ legend) ∧
      (∀ v hex : String, (v, hex) ∈ legend →
        some v ∈ [⟨some "Web", none, some "Roxbury", "2024-01-02 03:04:05",
          none⟩].map (projOf "source") ∧
        ∃ rgb, pyGet v (get_global_color_mapping [((1, 2, 3) : RGB)]
            [⟨some "Web", none, some "Roxbury", "2024-01-02 03:04:05", none⟩]
            "source") = some rgb ∧ hex = hexColor rgb) :=
  legend_matches_filtered [((1, 2, 3) : RGB)]
    [⟨some "Web", none, some "Roxbury", "2024-01-02 03:04:05", none⟩]
    [⟨some "Web", none, some "Roxbury", "2024-01-02 03:04:05", none⟩]
    "source" 1 (by decide) (fun _ hr => hr)

theorem alphaChannel_half : alphaChannel (1 / 2) = 127 := by
  rw [alphaChannel]
  rw [show ((1 : ℚ) / 2 * 255) = 255 / 2 by ring]
  rw [Int.floor_eq_iff]
  norm_num

/-- Claim C9: with `color_column="source"` and `alpha=0.5`, every row of a
filtered sub-table receives exactly the global mapping's RGB entry for that
row's rendered `source` value, with the alpha channel
`int(0.5 * 255) = 127` appended (127 is one of the two roundings 127/128
the claim allows). -/
theorem source_alpha_half_colors (palette : List RGB)
    (table filtered : List RequestRow) (hsub : ∀ r ∈ filtered, r ∈ table) :
    alphaChannel (1 / 2) = 127 ∧
    ∃ colors legend,
      map_column_to_color (get_global_color_mappings palette table) "source"
        (filtered.map (projOf "source")) (1 / 2) true =
          some (colors, legend) ∧
      colors.length = filtered.length ∧
      ∀ i : Nat, i < filtered.length →
        ∃ rgb,
          pyGet (strOfValue ((filtered.map (projOf "source")).getD i none))
            (get_global_color_mapping palette table "source") = some rgb ∧
          colors.getD i [] =
            [(rgb.1 : Int), (rgb.2.1 : Int), (rgb.2.2 : Int), 127] := by
  have hdom := hdom_of_subtable palette table filtered "source" hsub
  refine ⟨alphaChannel_half, _, _,
    map_column_to_color_eq palette table "source" _ (1 / 2) (by decide) hdom,
    by simp, ?_⟩
  intro i hi
  have hi2 : i < (filtered.map (projOf "source")).length := by simpa using hi
  have hmem := getD_mem_of_lt (filtered.map (projOf "source")) i hi2 none
  obtain ⟨rgb, hrgb⟩ := Option.isSome_iff_exists.mp (hdom _ hmem)
  refine ⟨rgb, hrgb, ?_⟩
  rw [getD_map_of_lt _ _ i hi2 none [], globalRowColor, hrgb, alphaChannel_half]

/-- Witness for C9 on a concrete one-row filtered set. -/
theorem source_alpha_half_colors_witness :
    alphaChannel (1 / 2) = 127 ∧
    ∃ colors legend,
      map_column_to_color
        (get_global_color_mappings [((1, 2, 3) : RGB)]
          [⟨some "Web", none, some "Roxbury", "2024-01-02 03:04:05", none⟩])
        "source"
        ([⟨some "Web", none, some "Roxbury", "2024-01-02 03:04:05", none⟩].map
          (projOf "source")) (1 / 2) true = some (colors, legend) ∧
      colors.length =
        ([⟨some "Web", none, some "Roxbury", "2024-01-02 03:04:05",
          none⟩] : List RequestRow).length ∧
      ∀ i : Nat,
        i < ([⟨some "Web", none, some "Roxbury", "2024-01-02 03:04:05",
          none⟩] : List RequestRow).length →
        ∃ rgb,
          pyGet (strOfValue
              (([⟨some "Web", none, some "Roxbury", "2024-01-02 03:04:05",
                none⟩].map (projOf "source")).getD i none))
            (get_global_color_mapping [((1, 2, 3) : RGB)]
              [⟨some "Web", none, some "Roxbury", "2024-01-02 03:04:05",
                none⟩] "source") = some rgb ∧
          colors.getD i [] =
            [(rgb.1 : Int), (rgb.2.1 : Int), (rgb.2.2 : Int), 127] :=
  source_alpha_half_colors [((1, 2, 3) : RGB)]
    [⟨some "Web", none, some "Roxbury", "2024-01-02 03:04:05", none⟩]
    [⟨some "Web", none, some "Roxbury", "2024-01-02 03:04:05", none⟩]
    (fun _ hr => hr)

/-! ## Dashboard controller (`dashboard.py`)

`param` dispatches the watchers of a changed field synchronously and in
registration (definition) order: for `time_period` first
`_update_time_period`, then `_update_data`; for the three value fields just
`_update_data`. A watcher only fires when the assigned value differs from
the current one. Assignments made inside a watcher dispatch re-entrantly
before the next watcher of the outer event runs. The step functions below
replay exactly this schedule and record the externally visible actions. -/

/-- The controller's filter state: the four selector fields and the three
allowed-value (selector `objects`) lists. -/
structure DashState where
  time_period : String
  neighborhood : String
  source : String
  subject : String
  neighborhoodObjects : List String
  sourceObjects : List String
  subjectObjects : List String
deriving DecidableEq, Repr

/-- Externally visible controller actions, in execution order: an
allowed-value recomputation for a period's bounds (`_update_time_period`'s
three lookups), or a data query issued by `_update_data` with the filter
conditions it was built from. -/
inductive DashEvent where
  | recomputeOptions (start_date end_date : String)
  | dataQuery (conds : List String)
deriving DecidableEq, Repr

/-- `_build_filter_conditions` from `dashboard.py`: base geometry
condition, raw-interpolated time range, then one escaped equality per
non-`"All"` field. -/
def build_filter_conditions (periods : String → String × String)
    (s : DashState) : List String :=
  let conditions := ["geometry IS NOT NULL"]
  let p := periods s.time_period
  let conditions := conditions ++
    ["open_dt >= " ++ squoteStr ++ p.1 ++ squoteStr ++
     " AND open_dt < " ++ squoteStr ++ p.2 ++ squoteStr]
  let conditions :=
    if s.neighborhood ≠ "All" then
      conditions ++ ["neighborhood = " ++ sqlLiteral s.neighborhood]
    else conditions
  let conditions :=
    if s.source ≠ "All" then
      conditions ++ ["source = " ++ sqlLiteral s.source]
    else conditions
  if s.subject ≠ "All" then
    conditions ++ ["subject = " ++ sqlLiteral s.subject]
  else conditions

/-- `_update_data`: rebuilds the filter predicate and issues the query. -/
def update_data (periods : String → String × String) (s : DashState) :
    List DashEvent :=
  [DashEvent.dataQuery (build_filter_conditions periods s)]

/-- Assigning `self.neighborhood`: a no-op when unchanged, else the field
updates and its watcher `_update_data` runs. -/
def set_neighborhood (periods : String → String × String) (s : DashState)
    (v : String) : DashState × List DashEvent :=
  if v = s.neighborhood then (s, [])
  else
    let s2 := { s with neighborhood := v }
    (s2, update_data periods s2)

/-- Assigning `self.source`. -/
def set_source (periods : String → String × String) (s : DashState)
    (v : String) : DashState × List DashEvent :=
  if v = s.source then (s, [])
  else
    let s2 := { s with source := v }
    (s2, update_data periods s2)

/-- Assigning `self.subject`. -/
def set_subject (periods : String → String × String) (s : DashState)
    (v : String) : DashState × List DashEvent :=
  if v = s.subject then (s, [])
  else
    let s2 := { s with subject := v }
    (s2, update_data periods s2)

/-- Assigning `self.time_period`: when changed, `_update_time_period` runs
first (recompute the three option lists from the new bounds, then reset
the three fields to `"All"`, each reset re-entrantly dispatching
`_update_data`), then the `time_period` watcher `_update_data` runs. -/
def set_time_period (table : List RequestRow)
    (periods : String → String × String) (s : DashState) (v : String) :
    DashState × List DashEvent :=
  if v = s.time_period then (s, [])
  else
    let s1 := { s with time_period := v }
    let p := periods v
    let s2 := { s1 with
      neighborhoodObjects := get_neighborhoods table (some p.1) (some p.2),
      sourceObjects := get_sources table (some p.1) (some p.2),
      subjectObjects := get_subjects table (some p.1) (some p.2) }
    let r1 := set_neighborhood periods s2 "All"
    let r2 := set_source periods r1.1 "All"
    let r3 := set_subject periods r2.1 "All"
    (r3.1,
     DashEvent.recomputeOptions p.1 p.2 ::
       (r1.2 ++ r2.2 ++ r3.2 ++ update_data periods r3.1))

theorem set_neighborhood_spec (periods : String → String × String)
    (s : DashState) (v : String) :
    (set_neighborhood periods s v).1 = { s with neighborhood := v } ∧
    ∀ e ∈ (set_neighborhood periods s v).2, ∃ c, e = DashEvent.dataQuery c := by
  by_cases h : v = s.neighborhood
  · subst h
    refine ⟨?_, ?_⟩
    · rw [set_neighborhood, if_pos rfl]
    · simp [set_neighborhood]
  · simp [set_neighborhood, h, update_data]

theorem set_source_spec (periods : String → String × String)
    (s : DashState) (v : String) :
    (set_source periods s v).1 = { s with source := v } ∧
    ∀ e ∈ (set_source periods s v).2, ∃ c, e = DashEvent.dataQuery c := by
  by_cases h : v = s.source
  · subst h
    refine ⟨?_, ?_⟩
    · rw [set_source, if_pos rfl]
    · simp [set_source]
  · simp [set_source, h, update_data]

theorem set_subject_spec (periods : String → String × String)
    (s : DashState) (v : String) :
    (set_subject periods s v).1 = { s with subject := v } ∧
    ∀ e ∈ (set_subject periods s v).2, ∃ c, e = DashEvent.dataQuery c := by
  by_cases h : v = s.subject
  · subst h
    refine ⟨?_, ?_⟩
    · rw [set_subject, if_pos rfl]
    · simp [set_subject]
  · simp [set_subject, h, update_data]

/-- Claim C4: whenever `time_period` actually changes, the controller ends
with neighborhood, source and subject reset to `"All"` and with all three
allowed-value lists recomputed from the new period's bounds; and in the
resulting action trace the allowed-value recomputation is the very first
event, so it precedes every data query triggered by the change. -/
theorem time_period_change_resets (table : List RequestRow)
    (periods : String → String × String) (s : DashState) (v : String)
    (st : DashState) (evs : List DashEvent)
    (hchange : ¬v = s.time_period)
    (hrun : set_time_period table periods s v = (st, evs)) :
    st.time_period = v ∧
    st.neighborhood = "All" ∧ st.source = "All" ∧ st.subject = "All" ∧
    st.neighborhoodObjects =
      get_neighborhoods table (some (periods v).1) (some (periods v).2) ∧
    st.sourceObjects =
      get_sources table (some (periods v).1) (some (periods v).2) ∧
    st.subjectObjects =
      get_subjects table (some (periods v).1) (some (periods v).2) ∧
    ∃ qs, evs = DashEvent.recomputeOptions (periods v).1 (periods v).2 :: qs ∧
      ∀ e ∈ qs, ∃ conds, e = DashEvent.dataQuery conds := by
  rw [set_time_period, if_neg hchange] at hrun
  have hst := congrArg Prod.fst hrun
  have hevs := congrArg Prod.snd hrun
  simp only at hst hevs
  rw [(set_neighborhood_spec periods _ "All").1,
    (set_source_spec periods _ "All").1,
    (set_subject_spec periods _ "All").1] at hst
  refine ⟨?_, ?_, ?_, ?_, ?_, ?_, ?_, ?_⟩
  · rw [← hst]
  · rw [← hst]
  · rw [← hst]
  · rw [← hst]
  · rw [← hst]
  · rw [← hst]
  · rw [← hst]
  · refine ⟨_, hevs.symm, ?_⟩
    intro e he
    rw [List.mem_append] at he
    rcases he with he | he
    · rw [List.mem_append] at he
      rcases he with he | he
      · rw [List.mem_append] at he
        rcases he with he | he
        · exact (set_neighborhood_spec periods _ "All").2 e he
        · exact (set_source_spec periods _ "All").2 e he
      · exact (set_subject_spec periods _ "All").2 e he
    · rw [update_data, List.mem_singleton] at he
      exact ⟨_, he⟩

/-- Witness for C4 at a concrete state and period change. -/
theorem time_period_change_resets_witness :
    ((set_time_period ([] : List RequestRow)
      (fun _ => ("2024-01-01 00:00:00", "2025-01-01 00:00:00"))
      ⟨"Year to Date", "Roxbury", "All", "All", [], [], []⟩ "2024").1).time_period
        = "2024" ∧
    ((set_time_period ([] : List RequestRow)
      (fun _ => ("2024-01-01 00:00:00", "2025-01-01 00:00:00"))
      ⟨"Year to Date", "Roxbury", "All", "All", [], [], []⟩
        "2024").1).neighborhood = "All" ∧
    ((set_time_period ([] : List RequestRow)
      (fun _ => ("2024-01-01 00:00:00", "2025-01-01 00:00:00"))
      ⟨"Year to Date", "Roxbury", "All", "All", [], [], []⟩ "2024").1).source
        = "All" ∧
    ((set_time_period ([] : List RequestRow)
      (fun _ => ("2024-01-01 00:00:00", "2025-01-01 00:00:00"))
      ⟨"Year to Date", "Roxbury", "All", "All", [], [], []⟩ "2024").1).subject
        = "All" ∧
    ((set_time_period ([] : List RequestRow)
      (fun _ => ("2024-01-01 00:00:00", "2025-01-01 00:00:00"))
      ⟨"Year to Date", "Roxbury", "All", "All", [], [], []⟩
        "2024").1).neighborhoodObjects =
      get_neighborhoods [] (some "2024-01-01 00:00:00")
        (some "2025-01-01 00:00:00") ∧
    ((set_time_period ([] : List RequestRow)
      (fun _ => ("2024-01-01 00:00:00", "2025-01-01 00:00:00"))
      ⟨"Year to Date", "Roxbury", "All", "All", [], [], []⟩
        "2024").1).sourceObjects =
      get_sources [] (some "2024-01-01 00:00:00")
        (some "2025-01-01 00:00:00") ∧
    ((set_time_period ([] : List RequestRow)
      (fun _ => ("2024-01-01 00:00:00", "2025-01-01 00:00:00"))
      ⟨"Year to Date", "Roxbury", "All", "All", [], [], []⟩
        "2024").1).subjectObjects =
      get_subjects [] (some "2024-01-01 00:00:00")
        (some "2025-01-01 00:00:00") ∧
    ∃ qs, (set_time_period ([] : List RequestRow)
      (fun _ => ("2024-01-01 00:00:00", "2025-01-01 00:00:00"))
      ⟨"Year to Date", "Roxbury", "All", "All", [], [], []⟩ "2024").2 =
        DashEvent.recomputeOptions "2024-01-01 00:00:00"
          "2025-01-01 00:00:00" :: qs ∧
      ∀ e ∈ qs, ∃ conds, e = DashEvent.dataQuery conds :=
  time_period_change_resets []
    (fun _ => ("2024-01-01 00:00:00", "2025-01-01 00:00:00"))
    ⟨"Year to Date", "Roxbury", "All", "All", [], [], []⟩ "2024" _ _
    (by decide) rfl
